import Mathlib

/-!
Shallow embedding of `packages/plugin-ext/src/plugin/command-registry.ts`
from the Theia repository: the plugin-side command registry
(`CommandRegistryImpl`) and the safe-command converter (`CommandsConverter`).

Modelling conventions.  JavaScript runtime values that cross the registry
are modelled by `Val`.  A JS `Map` is an association list with JS
semantics: `set` overwrites in place, `delete` removes the key, `get`
returns the first binding.  A JS `Set` of strings is a duplicate-free
list.  The remote proxy (`CommandRegistryMain`) is modelled by a log of
the notifications sent to it.  A forwarded execution
(`KnownCommands.map` plus `proxy.$executeCommand`, code outside this
file) is modelled by the opaque outcome `ExecOutcome.remote` carrying the
identifier and arguments handed to that fallback.  Thrown exceptions are
modelled with `Except`, rejected promises with `ExecOutcome.rejected`.
Because `executeSafeCommand` re-enters `executeCommand`, execution takes
a fuel parameter; fuel is consumed only when the trampoline re-enters the
registry, so any claim below holds for every sufficiently large fuel.
Since the class instances `CommandRegistryImpl` and `CommandsConverter`
hold references to each other, their fields are merged into one explicit
state record `RegistryState`, and each method becomes a function from
that state.
-/

namespace Theia

/-- A JavaScript value passed as a command argument or returned by a handler. -/
inductive Val where
  | num (n : Int)
  | str (s : String)
  | unit
deriving DecidableEq

/-- One notification sent to the remote proxy `CommandRegistryMain`. -/
inductive ProxyCall where
  | registerCommand (id : String)
  | unregisterCommand (id : String)
  | registerHandler (id : String)
  | unregisterHandler (id : String)
deriving DecidableEq

/-- JS `Map.get`: the value bound to `k`, if any. -/
def jsMapGet {α : Type} {β : Type} [DecidableEq α] : List (α × β) → α → Option β
  | [], _ => none
  | (k', v) :: rest, k => if k' = k then some v else jsMapGet rest k

/-- JS `Map.set`: overwrite the binding of `k` in place, or append it. -/
def jsMapSet {α : Type} {β : Type} [DecidableEq α] : List (α × β) → α → β → List (α × β)
  | [], k, v => [(k, v)]
  | (k', v') :: rest, k, v =>
    if k' = k then (k', v) :: rest else (k', v') :: jsMapSet rest k v

/-- JS `Map.delete`: remove the binding of `k`. -/
def jsMapDelete {α : Type} {β : Type} [DecidableEq α] : List (α × β) → α → List (α × β)
  | [], _ => []
  | (k', v) :: rest, k =>
    if k' = k then jsMapDelete rest k else (k', v) :: jsMapDelete rest k

/-- JS `Set.has` on a set of strings. -/
def jsSetHas : List String → String → Bool
  | [], _ => false
  | y :: rest, x => if y = x then true else jsSetHas rest x

/-- JS `Set.add`: append the element when it is not yet present. -/
def jsSetAdd (s : List String) (x : String) : List String :=
  if jsSetHas s x then s else s ++ [x]

/-- JS `Set.delete`: remove the element. -/
def jsSetDelete : List String → String → List String
  | [], _ => []
  | y :: rest, x => if y = x then jsSetDelete rest x else y :: jsSetDelete rest x

/-- The interface `theia.Command`: an optional command identifier, an
optional display title and an optional argument list, as used by
`CommandsConverter`. -/
structure Command where
  command : Option String := none
  title : Option String := none
  arguments : Option (List Val) := none
deriving DecidableEq

/-- The interface `theia.CommandDescription` as used by `registerCommand`:
only its `id` field is read by the code under study. -/
structure CommandDescription where
  id : String
deriving DecidableEq

/-- A handler value before binding: either a plain function of a receiver
(`this`) and the argument list, or the converter method
`CommandsConverter.executeSafeCommand` (whose behaviour is given by the
execution functions below, since it reads the converter state). -/
inductive RawHandler where
  | fn (f : Val → List Val → Val)
  | safeExec

/-- A handler as stored in the `handlers` map: `registerHandler` wraps the
raw handler so that it is applied to the caller-supplied receiver context
(`handler.apply(thisArg, args)`). -/
inductive BoundHandler where
  | bound (f : Val → List Val → Val) (thisArg : Val)
  | safeBound

/-- Binding of a raw handler to a receiver context, as performed by
`registerHandler`. -/
def bindHandler : RawHandler → Val → BoundHandler
  | RawHandler.fn f, thisArg => BoundHandler.bound f thisArg
  | RawHandler.safeExec, _ => BoundHandler.safeBound

/-- One disposable produced by the code under study, identified by the
state change its `dispose` callback performs. -/
inductive DispAction where
  | disposeHandler (commandId : String)
  | disposeCommand (commandId : String)
  | disposeMapEntry (handle : Int)
deriving DecidableEq

/-- The merged mutable state of one `CommandRegistryImpl` and its
`CommandsConverter`. -/
structure RegistryState where
  commands : List String
  handlers : List (String × BoundHandler)
  argumentProcessors : List (Val → Val)
  proxyLog : List ProxyCall
  safeCommandId : String
  commandsMap : List (Int × Command)
  handle : Int
  isSafeCommandRegistered : Bool

/-- The state after the constructors have run: all tables empty, handle
counter at zero, trampoline not yet registered.  The safe command
identifier is derived from the wall clock in the source
(`theia_safe_cmd_` plus `Date.now()`), so it is a parameter here. -/
def initialState (safeId : String) : RegistryState :=
  { commands := []
    handlers := []
    argumentProcessors := []
    proxyLog := []
    safeCommandId := safeId
    commandsMap := []
    handle := 0
    isSafeCommandRegistered := false }

/-- Effect of running one disposable. -/
def runDispAction (st : RegistryState) : DispAction → RegistryState
  | DispAction.disposeHandler cid =>
    { st with
      handlers := jsMapDelete st.handlers cid
      proxyLog := st.proxyLog ++ [ProxyCall.unregisterHandler cid] }
  | DispAction.disposeCommand cid =>
    { st with
      commands := jsSetDelete st.commands cid
      proxyLog := st.proxyLog ++ [ProxyCall.unregisterCommand cid] }
  | DispAction.disposeMapEntry h =>
    { st with commandsMap := jsMapDelete st.commandsMap h }

/-- Effect of disposing a list of disposables in order (`Disposable.from`
and `DisposableCollection` dispose their members in insertion order). -/
def runDisposables (st : RegistryState) (ds : List DispAction) : RegistryState :=
  ds.foldl runDispAction st

/-- `CommandRegistryImpl.registerHandler`.  Throws when a handler is
already attached; otherwise notifies the proxy, stores the bound handler
and returns the disposable that detaches it.  The state is returned in
both cases because JS mutations made before a throw persist. -/
def registerHandler (st : RegistryState) (commandId : String) (handler : RawHandler)
    (thisArg : Val) : RegistryState × Except String DispAction :=
  if (jsMapGet st.handlers commandId).isSome then
    (st, Except.error ("Command \"" ++ commandId ++ "\" already has handler"))
  else
    ({ st with
        proxyLog := st.proxyLog ++ [ProxyCall.registerHandler commandId]
        handlers := jsMapSet st.handlers commandId (bindHandler handler thisArg) },
     Except.ok (DispAction.disposeHandler commandId))

/-- `CommandRegistryImpl.registerCommand`.  Throws on a duplicate
identifier; otherwise records the identifier, notifies the proxy,
attaches the handler when one is supplied (which may itself throw) and
returns the list of disposables combined by `Disposable.from`. -/
def registerCommand (st : RegistryState) (command : CommandDescription)
    (handler : Option (RawHandler × Val)) :
    RegistryState × Except String (List DispAction) :=
  if jsSetHas st.commands command.id then
    (st, Except.error ("Command " ++ command.id ++ " already exist"))
  else
    let st1 := { st with
      commands := jsSetAdd st.commands command.id
      proxyLog := st.proxyLog ++ [ProxyCall.registerCommand command.id] }
    match handler with
    | none => (st1, Except.ok [DispAction.disposeCommand command.id])
    | some (h, thisArg) =>
      match registerHandler st1 command.id h thisArg with
      | (st2, Except.error e) => (st2, Except.error e)
      | (st2, Except.ok d) =>
        (st2, Except.ok [d, DispAction.disposeCommand command.id])

/-- `CommandRegistryImpl.registerArgumentProcessor`: appends a processor. -/
def registerArgumentProcessor (st : RegistryState) (p : Val → Val) : RegistryState :=
  { st with argumentProcessors := st.argumentProcessors ++ [p] }

/-- The threading of one argument through the processors in registration
order: `this.argumentProcessors.reduce((r, p) => p.processArgument(r), arg)`. -/
def processArgument (ps : List (Val → Val)) (arg : Val) : Val :=
  ps.foldl (fun r p => p r) arg

/-- `commandsMap.get(args[0])`: the JS map lookup returns a binding only
when the key is a number present in the map; on `undefined` (missing
argument) or a non-numeric value it returns `undefined`. -/
def commandsMapLookup (st : RegistryState) : Option Val → Option Command
  | some (Val.num n) => jsMapGet st.commandsMap n
  | _ => none

/-- JS truthiness of the `command` field: `undefined` and the empty
string are falsy. -/
def truthyStr : Option String → Bool
  | none => false
  | some s => !(s == "")

/-- JS condition `command.arguments && command.arguments.length > 0`. -/
def argsNonEmpty : Option (List Val) → Bool
  | none => false
  | some l => decide (0 < l.length)

/-- Execution outcome of a command invocation: a resolved value, a
rejected promise, or a forward through the `KnownCommands` mapping to the
remote proxy (that mapping and the proxy live outside this file, so the
outcome records the identifier and arguments handed to the fallback). -/
inductive ExecOutcome where
  | ok (v : Val)
  | rejected (msg : String)
  | remote (id : String) (args : List Val)
deriving DecidableEq

/-- Body of `CommandsConverter.executeSafeCommand`, parameterised by the
re-entry into `CommandRegistryImpl.executeCommand`: looks up the handle
(`args[0]`), rejects when the entry is absent or its `command` field is
falsy, and otherwise re-executes the stored command with its stored
arguments (`command.arguments || []`). -/
def executeSafeCommandCore (execCmd : String → List Val → ExecOutcome)
    (st : RegistryState) (args : List Val) : ExecOutcome :=
  match commandsMapLookup st args.head? with
  | none => ExecOutcome.rejected "command NOT FOUND"
  | some cmd =>
    match cmd.command with
    | none => ExecOutcome.rejected "command NOT FOUND"
    | some cid =>
      if cid = "" then ExecOutcome.rejected "command NOT FOUND"
      else execCmd cid (cmd.arguments.getD [])

/-- Body of `CommandRegistryImpl.executeLocalCommand`, parameterised by
the behaviour of the trampoline handler: looks up the handler, threads
every argument through the processors, and applies the handler. -/
def executeLocalCommandCore (execSafe : RegistryState → List Val → ExecOutcome)
    (st : RegistryState) (id : String) (args : List Val) : ExecOutcome :=
  match jsMapGet st.handlers id with
  | none => ExecOutcome.rejected ("Command " ++ id ++ " doesn\x27t exist")
  | some h =>
    let processed := args.map (processArgument st.argumentProcessors)
    match h with
    | BoundHandler.bound f thisArg => ExecOutcome.ok (f thisArg processed)
    | BoundHandler.safeBound => execSafe st processed

/-- `CommandRegistryImpl.executeCommand`: runs the local handler when one
is attached, otherwise forwards through the `KnownCommands` mapping to
the remote proxy.  Fuel bounds the re-entry depth of the trampoline; the
`recursion limit` outcome is a modelling artifact never reached at
sufficient fuel. -/
def executeCommand : Nat → RegistryState → String → List Val → ExecOutcome
  | 0, _, _, _ => ExecOutcome.rejected "recursion limit"
  | fuel + 1, st, id, args =>
    if (jsMapGet st.handlers id).isSome then
      executeLocalCommandCore
        (fun st' a => executeSafeCommandCore (executeCommand fuel st') st' a) st id args
    else
      ExecOutcome.remote id args

/-- `CommandsConverter.executeSafeCommand` with its re-entry tied to
`executeCommand` at the given fuel. -/
def executeSafeCommand (fuel : Nat) (st : RegistryState) (args : List Val) : ExecOutcome :=
  executeSafeCommandCore (executeCommand fuel st) st args

/-- `CommandRegistryImpl.executeLocalCommand` with the trampoline tied to
`executeCommand` at the given fuel. -/
def executeLocalCommand (fuel : Nat) (st : RegistryState) (id : String)
    (args : List Val) : ExecOutcome :=
  executeLocalCommandCore
    (fun st' a => executeSafeCommandCore (executeCommand fuel st') st' a) st id args

/-- `CommandRegistryImpl.$executeCommand`: the remote-originated entry
point runs the local handler when one is attached and otherwise rejects;
it has no fallback to the remote side. -/
def dollarExecuteCommand (fuel : Nat) (st : RegistryState) (id : String)
    (args : List Val) : ExecOutcome :=
  if (jsMapGet st.handlers id).isSome then
    executeLocalCommand fuel st id args
  else
    ExecOutcome.rejected ("Command: " ++ id ++ " does not exist.")

/-- The lazy registration of the trampoline command performed at the top
of `CommandsConverter.toSafeCommand`: on first use, register the safe
command with `executeSafeCommand` as its handler (receiver: the
converter) and set the flag.  The returned disposable is discarded by the
source; a thrown duplicate error propagates. -/
def ensureSafeRegistered (st : RegistryState) : RegistryState × Except String Unit :=
  if st.isSafeCommandRegistered then (st, Except.ok ())
  else
    match registerCommand st { id := st.safeCommandId }
        (some (RawHandler.safeExec, Val.unit)) with
    | (st1, Except.error e) => (st1, Except.error e)
    | (st1, Except.ok _) =>
      ({ st1 with isSafeCommandRegistered := true }, Except.ok ())

/-- `CommandsConverter.toSafeCommand`: after the lazy trampoline
registration, copy the command (`Object.assign`); when its `command`
field is truthy and its argument list is non-empty, allocate the next
handle, store the original command under it, push the release of that
binding onto the caller-supplied disposable collection, and rewrite the
copy to call the trampoline with the handle as sole argument; otherwise
return the copy unchanged. -/
def toSafeCommand (st : RegistryState) (command : Command)
    (disposables : List DispAction) :
    RegistryState × Except String (Command × List DispAction) :=
  match ensureSafeRegistered st with
  | (st1, Except.error e) => (st1, Except.error e)
  | (st1, Except.ok _) =>
    let result : Command := command
    if truthyStr command.command && argsNonEmpty command.arguments then
      let id := st1.handle
      let st2 := { st1 with
        handle := st1.handle + 1
        commandsMap := jsMapSet st1.commandsMap id command }
      (st2, Except.ok
        ({ result with
            command := some st1.safeCommandId
            arguments := some [Val.num id] },
         disposables ++ [DispAction.disposeMapEntry id]))
    else
      (st1, Except.ok (result, disposables))

/-- Precondition for the lazy trampoline registration not to throw:
either it already happened, or the safe command identifier is still free
in both tables. -/
def SafeRegOk (st : RegistryState) : Prop :=
  st.isSafeCommandRegistered = true ∨
    (st.isSafeCommandRegistered = false ∧
      jsSetHas st.commands st.safeCommandId = false ∧
      (jsMapGet st.handlers st.safeCommandId).isNone = true)

/-- Invariant of the converter: every handle stored in `commandsMap` is
strictly below the next handle to be allocated. -/
def HandleInv (st : RegistryState) : Prop :=
  ∀ p ∈ st.commandsMap, p.1 < st.handle

/-- A sample handler used for concrete evaluations: returns the first
processed argument (ignoring the receiver). -/
def headHandler : Val → List Val → Val :=
  fun _ args => args.headD Val.unit

/-- A sample argument processor used for concrete evaluations: adds one
to numeric arguments. -/
def addOneProcessor : Val → Val
  | Val.num n => Val.num (n + 1)
  | v => v

/-- A concrete state with a handler attached to `x` and two copies of
`addOneProcessor` registered, in that order. -/
def procWitnessState : RegistryState :=
  registerArgumentProcessor
    (registerArgumentProcessor
      { initialState "safe" with
        commands := ["x"]
        handlers := [("x", BoundHandler.bound headHandler Val.unit)] }
      addOneProcessor)
    addOneProcessor

/-- A concrete state reached by attaching a handler to `x` through
`registerHandler` without ever calling `registerCommand` for `x`. -/
def preHandlerState : RegistryState :=
  (registerHandler (initialState "safe") "x" (RawHandler.fn headHandler) Val.unit).1

/-- A concrete command with a falsy `command` field but a non-empty
argument list. -/
def cexCommand : Command :=
  { command := none, title := some "t", arguments := some [Val.num 5] }

theorem jsMapGet_set_self {α β : Type} [DecidableEq α] (m : List (α × β)) (k : α) (v : β) :
    jsMapGet (jsMapSet m k v) k = some v := by
  induction m with
  | nil => simp [jsMapSet, jsMapGet]
  | cons p rest ih =>
    obtain ⟨k', v'⟩ := p
    by_cases hk : k' = k
    · subst hk
      simp [jsMapSet, jsMapGet]
    · simp [jsMapSet, jsMapGet, hk, ih]

theorem jsMapGet_set_ne {α β : Type} [DecidableEq α] (m : List (α × β)) (k k' : α) (v : β)
    (h : k' ≠ k) : jsMapGet (jsMapSet m k v) k' = jsMapGet m k' := by
  have h2 : k ≠ k' := Ne.symm h
  induction m with
  | nil => simp [jsMapSet, jsMapGet, h2]
  | cons p rest ih =>
    obtain ⟨k0, v0⟩ := p
    by_cases hk : k0 = k
    · subst hk
      simp [jsMapSet, jsMapGet, h2]
    · by_cases hk' : k0 = k'
      · subst hk'
        simp [jsMapSet, jsMapGet, hk]
      · simp [jsMapSet, jsMapGet, hk, hk', ih]

theorem jsMapGet_delete_self {α β : Type} [DecidableEq α] (m : List (α × β)) (k : α) :
    jsMapGet (jsMapDelete m k) k = none := by
  induction m with
  | nil => simp [jsMapDelete, jsMapGet]
  | cons p rest ih =>
    obtain ⟨k0, v0⟩ := p
    by_cases hk : k0 = k
    · simp [jsMapDelete, hk, ih]
    · simp [jsMapDelete, jsMapGet, hk, ih]

theorem jsMapGet_delete_ne {α β : Type} [DecidableEq α] (m : List (α × β)) (k k' : α)
    (h : k' ≠ k) : jsMapGet (jsMapDelete m k) k' = jsMapGet m k' := by
  have h2 : k ≠ k' := Ne.symm h
  induction m with
  | nil => simp [jsMapDelete]
  | cons p rest ih =>
    obtain ⟨k0, v0⟩ := p
    by_cases hk : k0 = k
    · subst hk
      simp [jsMapDelete, jsMapGet, h2, ih]
    · simp [jsMapDelete, jsMapGet, hk, ih]

theorem mem_jsMapSet {α β : Type} [DecidableEq α] (m : List (α × β)) (k : α) (v : β)
    (p : α × β) (hp : p ∈ jsMapSet m k v) : p = (k, v) ∨ p ∈ m := by
  induction m with
  | nil =>
    simp [jsMapSet] at hp
    exact Or.inl hp
  | cons q rest ih =>
    obtain ⟨k0, v0⟩ := q
    by_cases hk : k0 = k
    · subst hk
      simp [jsMapSet] at hp
      rcases hp with hp | hp
      · exact Or.inl (by simp [hp])
      · exact Or.inr (List.mem_cons_of_mem _ hp)
    · simp [jsMapSet, hk] at hp
      rcases hp with hp | hp
      · exact Or.inr (by simp [hp])
      · rcases ih hp with h' | h'
        · exact Or.inl h'
        · exact Or.inr (List.mem_cons_of_mem _ h')

theorem mem_jsMapDelete {α β : Type} [DecidableEq α] (m : List (α × β)) (k : α)
    (p : α × β) (hp : p ∈ jsMapDelete m k) : p ∈ m := by
  induction m with
  | nil => simp [jsMapDelete] at hp
  | cons q rest ih =>
    obtain ⟨k0, v0⟩ := q
    by_cases hk : k0 = k
    · simp [jsMapDelete, hk] at hp
      exact List.mem_cons_of_mem _ (ih hp)
    · simp [jsMapDelete, hk] at hp
      rcases hp with hp | hp
      · simp [hp]
      · exact List.mem_cons_of_mem _ (ih hp)

theorem jsMapGet_eq_none_of_lt (m : List (Int × Command)) (h : Int)
    (hm : ∀ p ∈ m, p.1 < h) : jsMapGet m h = none := by
  induction m with
  | nil => simp [jsMapGet]
  | cons p rest ih =>
    obtain ⟨k0, v0⟩ := p
    have hk : k0 ≠ h := by
      have := hm (k0, v0) (by simp)
      exact ne_of_lt this
    simp [jsMapGet, hk]
    exact ih (fun q hq => hm q (List.mem_cons_of_mem _ hq))

theorem jsSetHas_append_self (s : List String) (x : String) :
    jsSetHas (s ++ [x]) x = true := by
  induction s with
  | nil => simp [jsSetHas]
  | cons y rest ih =>
    by_cases h : y = x
    · simp [jsSetHas, h]
    · simp [jsSetHas, h, ih]

theorem jsSetHas_add_self (s : List String) (x : String) :
    jsSetHas (jsSetAdd s x) x = true := by
  unfold jsSetAdd
  by_cases h : jsSetHas s x
  · simp [h]
  · simp [h, jsSetHas_append_self]

theorem jsSetHas_delete_self (s : List String) (x : String) :
    jsSetHas (jsSetDelete s x) x = false := by
  induction s with
  | nil => simp [jsSetDelete, jsSetHas]
  | cons y rest ih =>
    by_cases h : y = x
    · simp [jsSetDelete, h, ih]
    · simp [jsSetDelete, jsSetHas, h, ih]

theorem mem_of_jsMapGet {α β : Type} [DecidableEq α] (m : List (α × β)) (k : α) (v : β)
    (h : jsMapGet m k = some v) : (k, v) ∈ m := by
  induction m with
  | nil => simp [jsMapGet] at h
  | cons p rest ih =>
    obtain ⟨k0, v0⟩ := p
    by_cases hk : k0 = k
    · subst hk
      simp [jsMapGet] at h
      simp [h]
    · simp [jsMapGet, hk] at h
      exact List.mem_cons_of_mem _ (ih h)

theorem ensureSafeRegistered_ok (st : RegistryState) (h : SafeRegOk st) :
    (ensureSafeRegistered st).2 = Except.ok () ∧
    (ensureSafeRegistered st).1.commandsMap = st.commandsMap ∧
    (ensureSafeRegistered st).1.handle = st.handle ∧
    (ensureSafeRegistered st).1.safeCommandId = st.safeCommandId ∧
    (ensureSafeRegistered st).1.argumentProcessors = st.argumentProcessors := by
  rcases h with h | ⟨h1, h2, h3⟩
  · simp [ensureSafeRegistered, h]
  · have h3' : jsMapGet st.handlers st.safeCommandId = none :=
      Option.isNone_iff_eq_none.mp h3
    simp [ensureSafeRegistered, registerCommand, registerHandler, h1, h2, h3']

theorem ensureSafeRegistered_preserves (st : RegistryState) :
    (ensureSafeRegistered st).1.commandsMap = st.commandsMap ∧
    (ensureSafeRegistered st).1.handle = st.handle := by
  by_cases h : st.isSafeCommandRegistered
  · simp [ensureSafeRegistered, h]
  · simp only [ensureSafeRegistered, h, if_false, Bool.false_eq_true]
    by_cases h2 : jsSetHas st.commands st.safeCommandId
    · simp [registerCommand, h2]
    · by_cases h3 : (jsMapGet st.handlers st.safeCommandId).isSome
      · simp [registerCommand, registerHandler, h2, h3]
      · simp [registerCommand, registerHandler, h2, h3]

theorem toSafeCommand_eq_of_ok (st : RegistryState)
    (h : (ensureSafeRegistered st).2 = Except.ok ()) (c : Command)
    (scope : List DispAction) :
    toSafeCommand st c scope =
      (if truthyStr c.command && argsNonEmpty c.arguments then
        ({ (ensureSafeRegistered st).1 with
            handle := (ensureSafeRegistered st).1.handle + 1
            commandsMap := jsMapSet (ensureSafeRegistered st).1.commandsMap
              (ensureSafeRegistered st).1.handle c },
         Except.ok
           ({ c with
               command := some (ensureSafeRegistered st).1.safeCommandId
               arguments := some [Val.num (ensureSafeRegistered st).1.handle] },
            scope ++ [DispAction.disposeMapEntry (ensureSafeRegistered st).1.handle]))
      else ((ensureSafeRegistered st).1, Except.ok (c, scope))) := by
  have hsplit : ensureSafeRegistered st =
      ((ensureSafeRegistered st).1, (ensureSafeRegistered st).2) := rfl
  rw [h] at hsplit
  unfold toSafeCommand
  rw [hsplit]

/-- C4: a remote-originated invocation through `$executeCommand` runs the
local handler when one is attached to the identifier and otherwise
returns a rejected result; its dispatch never forwards back to the remote
proxy (in particular the no-handler case is a rejection, not a
`KnownCommands` forward). -/
theorem dollarExecuteCommand_local_only (fuel : Nat) (st : RegistryState)
    (id : String) (args : List Val) :
    (∀ h, jsMapGet st.handlers id = some h →
      dollarExecuteCommand fuel st id args = executeLocalCommand fuel st id args) ∧
    (jsMapGet st.handlers id = none →
      dollarExecuteCommand fuel st id args =
        ExecOutcome.rejected ("Command: " ++ id ++ " does not exist.") ∧
      ∀ rid rargs,
        dollarExecuteCommand fuel st id args ≠ ExecOutcome.remote rid rargs) := by
  constructor
  · intro h hh
    simp [dollarExecuteCommand, hh]
  · intro hh
    refine ⟨by simp [dollarExecuteCommand, hh], ?_⟩
    intro rid rargs
    simp [dollarExecuteCommand, hh]

/-- Witness for C4 at a concrete state with no handler for `x`. -/
theorem dollarExecuteCommand_local_only_witness :
    dollarExecuteCommand 1 (initialState "safe") "x" [Val.num 0] =
      ExecOutcome.rejected ("Command: " ++ "x" ++ " does not exist.") :=
  ((dollarExecuteCommand_local_only 1 (initialState "safe") "x" [Val.num 0]).2 rfl).1

/-- C6: `registerHandler` fails with a duplicate error and attaches
nothing when a handler is already attached; for a fresh identifier it
stores the handler bound to the supplied receiver context, notifies the
proxy, makes the identifier locally invocable, and returns a disposable
whose release detaches the handler and notifies the proxy of the
unregistration. -/
theorem registerHandler_spec (st : RegistryState) (cid : String)
    (f : Val → List Val → Val) (thisArg : Val) :
    ((jsMapGet st.handlers cid).isSome = true →
      registerHandler st cid (RawHandler.fn f) thisArg =
        (st, Except.error ("Command \"" ++ cid ++ "\" already has handler"))) ∧
    ((jsMapGet st.handlers cid).isNone = true →
      ∃ st' d, registerHandler st cid (RawHandler.fn f) thisArg = (st', Except.ok d) ∧
        jsMapGet st'.handlers cid = some (BoundHandler.bound f thisArg) ∧
        st'.proxyLog = st.proxyLog ++ [ProxyCall.registerHandler cid] ∧
        st'.commands = st.commands ∧
        (∀ fuel args, executeLocalCommand fuel st' cid args =
          ExecOutcome.ok (f thisArg (args.map (processArgument st'.argumentProcessors)))) ∧
        jsMapGet (runDispAction st' d).handlers cid = none ∧
        (runDispAction st' d).proxyLog =
          st'.proxyLog ++ [ProxyCall.unregisterHandler cid]) := by
  constructor
  · intro h
    simp [registerHandler, h]
  · intro h
    have h' : jsMapGet st.handlers cid = none := Option.isNone_iff_eq_none.mp h
    refine ⟨{ st with
        proxyLog := st.proxyLog ++ [ProxyCall.registerHandler cid]
        handlers := jsMapSet st.handlers cid (bindHandler (RawHandler.fn f) thisArg) },
      DispAction.disposeHandler cid, ?_, ?_, rfl, rfl, ?_, ?_, rfl⟩
    · simp [registerHandler, h']
    · simp [jsMapGet_set_self, bindHandler]
    · intro fuel args
      simp [executeLocalCommand, executeLocalCommandCore, jsMapGet_set_self, bindHandler]
    · simp [runDispAction, jsMapGet_delete_self]

/-- Witness for C6 at the empty initial state. -/
theorem registerHandler_spec_witness :
    (jsMapGet (initialState "safe").handlers "x").isNone = true ∧
    ∃ st' d, registerHandler (initialState "safe") "x" (RawHandler.fn headHandler)
        Val.unit = (st', Except.ok d) ∧
      jsMapGet st'.handlers "x" = some (BoundHandler.bound headHandler Val.unit) ∧
      st'.proxyLog = (initialState "safe").proxyLog ++ [ProxyCall.registerHandler "x"] ∧
      st'.commands = (initialState "safe").commands ∧
      (∀ fuel args, executeLocalCommand fuel st' "x" args =
        ExecOutcome.ok (headHandler Val.unit
          (args.map (processArgument st'.argumentProcessors)))) ∧
      jsMapGet (runDispAction st' d).handlers "x" = none ∧
      (runDispAction st' d).proxyLog =
        st'.proxyLog ++ [ProxyCall.unregisterHandler "x"] :=
  ⟨rfl, (registerHandler_spec (initialState "safe") "x" headHandler Val.unit).2 rfl⟩

/-- C7: `executeCommand` with a local handler applies the handler to the
arguments threaded through all registered argument processors in
registration order, each processor transforming the previous result. -/
theorem executeCommand_processes_arguments (fuel : Nat) (st : RegistryState)
    (id : String) (args : List Val) (f : Val → List Val → Val) (thisArg : Val)
    (h : jsMapGet st.handlers id = some (BoundHandler.bound f thisArg)) :
    executeCommand (fuel + 1) st id args =
      ExecOutcome.ok (f thisArg (args.map (fun arg =>
        st.argumentProcessors.foldl (fun r p => p r) arg))) := by
  simp only [executeCommand, h, Option.isSome_some, if_true, executeLocalCommandCore]
  rfl

/-- Witness for C7: two processors that each add one give the handler an
input incremented by two (`1` becomes `3`). -/
theorem executeCommand_processes_arguments_witness :
    jsMapGet procWitnessState.handlers "x" =
      some (BoundHandler.bound headHandler Val.unit) ∧
    executeCommand 1 procWitnessState "x" [Val.num 1, Val.num 5] =
      ExecOutcome.ok (Val.num 3) :=
  ⟨rfl, executeCommand_processes_arguments 0 procWitnessState "x"
    [Val.num 1, Val.num 5] headHandler Val.unit rfl⟩

/-- C10: when the command-identifier field is falsy (absent or the empty
string), `toSafeCommand` returns the copy unrewritten even for a
non-empty argument list: no handle is allocated, no mapping is stored,
and nothing is pushed onto the disposal scope. -/
theorem toSafeCommand_falsy_command_passthrough (st : RegistryState) (c : Command)
    (scope : List DispAction) (h : SafeRegOk st) (hf : truthyStr c.command = false) :
    ∃ st', toSafeCommand st c scope = (st', Except.ok (c, scope)) ∧
      st'.commandsMap = st.commandsMap ∧ st'.handle = st.handle := by
  obtain ⟨h1, h2, h3, _, _⟩ := ensureSafeRegistered_ok st h
  refine ⟨(ensureSafeRegistered st).1, ?_, h2, h3⟩
  rw [toSafeCommand_eq_of_ok st h1 c scope]
  simp [hf]

/-- Witness for C10: a command with no identifier but a non-empty
argument list passes through unchanged. -/
theorem toSafeCommand_falsy_command_passthrough_witness :
    SafeRegOk (initialState "safe") ∧
    truthyStr cexCommand.command = false ∧
    argsNonEmpty cexCommand.arguments = true ∧
    ∃ st', toSafeCommand (initialState "safe") cexCommand [] =
        (st', Except.ok (cexCommand, [])) ∧
      st'.commandsMap = (initialState "safe").commandsMap ∧
      st'.handle = (initialState "safe").handle :=
  ⟨Or.inr ⟨rfl, rfl, rfl⟩, rfl, rfl,
    toSafeCommand_falsy_command_passthrough (initialState "safe") cexCommand []
      (Or.inr ⟨rfl, rfl, rfl⟩) rfl⟩

/-- C1 counterexample: a command whose `command` field is falsy but whose
argument list is non-empty is returned unchanged by `toSafeCommand` (its
identifier is not replaced by the trampoline identifier, no mapping is
stored), so a non-empty argument list alone does not trigger the
rewrite. -/
theorem toSafeCommand_args_only_counterexample :
    argsNonEmpty cexCommand.arguments = true ∧
    (toSafeCommand (initialState "safe") cexCommand []).2 =
      Except.ok (cexCommand, []) ∧
    cexCommand.command ≠ some (initialState "safe").safeCommandId ∧
    (toSafeCommand (initialState "safe") cexCommand []).1.commandsMap = [] := by
  refine ⟨rfl, rfl, ?_, rfl⟩
  intro h
  exact Option.noConfusion h

/-- C1 amended: `toSafeCommand` returns a copy of the command; when the
`command` field is truthy AND the argument list is non-empty, the copy
references the trampoline identifier with the freshly allocated handle as
its sole argument and the original command is stored under that handle;
otherwise (no or empty arguments, or falsy command field) the copy is
returned unchanged. -/
theorem toSafeCommand_copy_rewrite (st : RegistryState) (c : Command)
    (scope : List DispAction) (h : SafeRegOk st) :
    ∃ st' res scope',
      toSafeCommand st c scope = (st', Except.ok (res, scope')) ∧
      res.title = c.title ∧
      ((truthyStr c.command && argsNonEmpty c.arguments) = true →
        res.command = some st.safeCommandId ∧
        ∃ hId, res.arguments = some [Val.num hId] ∧
          jsMapGet st'.commandsMap hId = some c ∧
          scope' = scope ++ [DispAction.disposeMapEntry hId]) ∧
      ((truthyStr c.command && argsNonEmpty c.arguments) = false →
        res = c ∧ scope' = scope) := by
  obtain ⟨h1, _, _, h4, _⟩ := ensureSafeRegistered_ok st h
  cases hcb : (truthyStr c.command && argsNonEmpty c.arguments) with
  | true =>
    refine ⟨{ (ensureSafeRegistered st).1 with
        handle := (ensureSafeRegistered st).1.handle + 1
        commandsMap := jsMapSet (ensureSafeRegistered st).1.commandsMap
          (ensureSafeRegistered st).1.handle c },
      { c with
          command := some (ensureSafeRegistered st).1.safeCommandId
          arguments := some [Val.num (ensureSafeRegistered st).1.handle] },
      scope ++ [DispAction.disposeMapEntry (ensureSafeRegistered st).1.handle],
      ?_, rfl, ?_, ?_⟩
    · rw [toSafeCommand_eq_of_ok st h1 c scope]
      simp [hcb]
    · intro _
      exact ⟨by rw [h4], (ensureSafeRegistered st).1.handle, rfl,
        jsMapGet_set_self _ _ _, rfl⟩
    · intro hf
      exact absurd hf (by decide)
  | false =>
    refine ⟨(ensureSafeRegistered st).1, c, scope, ?_, rfl, ?_, ?_⟩
    · rw [toSafeCommand_eq_of_ok st h1 c scope]
      simp [hcb]
    · intro ht
      exact absurd ht (by decide)
    · intro _
      exact ⟨rfl, rfl⟩

/-- Witness for the amended C1 at a concrete command with identifier and
one argument. -/
theorem toSafeCommand_copy_rewrite_witness :
    SafeRegOk (initialState "safe") ∧
    ∃ st' res scope',
      toSafeCommand (initialState "safe")
        { command := some "doIt", title := some "t", arguments := some [Val.num 1] }
        [] = (st', Except.ok (res, scope')) ∧
      res.title = some "t" ∧
      ((truthyStr (some "doIt") && argsNonEmpty (some [Val.num 1])) = true →
        res.command = some (initialState "safe").safeCommandId ∧
        ∃ hId, res.arguments = some [Val.num hId] ∧
          jsMapGet st'.commandsMap hId =
            some { command := some "doIt", title := some "t",
                   arguments := some [Val.num 1] } ∧
          scope' = [] ++ [DispAction.disposeMapEntry hId]) ∧
      ((truthyStr (some "doIt") && argsNonEmpty (some [Val.num 1])) = false →
        res = { command := some "doIt", title := some "t",
                arguments := some [Val.num 1] } ∧
        scope' = []) :=
  ⟨Or.inr ⟨rfl, rfl, rfl⟩,
    toSafeCommand_copy_rewrite (initialState "safe")
      { command := some "doIt", title := some "t", arguments := some [Val.num 1] }
      [] (Or.inr ⟨rfl, rfl, rfl⟩)⟩

/-- C2: converting a command (truthy identifier, non-empty arguments) and
then invoking the trampoline handler with the issued handle, while the
scope is undisposed, re-executes exactly the original command with its
original arguments through the normal `executeCommand` path. -/
theorem executeSafeCommand_round_trip (st : RegistryState) (c : Command)
    (scope : List DispAction) (fuel : Nat) (cid : String) (args : List Val)
    (h : SafeRegOk st) (hc : c.command = some cid) (hcne : cid ≠ "")
    (ha : c.arguments = some args) (hne : args ≠ []) :
    ∃ st' hId scope',
      toSafeCommand st c scope = (st', Except.ok
        ({ c with
            command := some st.safeCommandId
            arguments := some [Val.num hId] }, scope')) ∧
      executeSafeCommand fuel st' [Val.num hId] = executeCommand fuel st' cid args := by
  obtain ⟨h1, _, _, h4, _⟩ := ensureSafeRegistered_ok st h
  have hcb : (truthyStr c.command && argsNonEmpty c.arguments) = true := by
    simp [truthyStr, argsNonEmpty, hc, ha, hcne, List.length_pos.mpr hne]
  refine ⟨{ (ensureSafeRegistered st).1 with
      handle := (ensureSafeRegistered st).1.handle + 1
      commandsMap := jsMapSet (ensureSafeRegistered st).1.commandsMap
        (ensureSafeRegistered st).1.handle c },
    (ensureSafeRegistered st).1.handle,
    scope ++ [DispAction.disposeMapEntry (ensureSafeRegistered st).1.handle],
    ?_, ?_⟩
  · rw [toSafeCommand_eq_of_ok st h1 c scope]
    simp [hcb, h4]
  · simp [executeSafeCommand, executeSafeCommandCore, commandsMapLookup,
      jsMapGet_set_self, hc, ha, hcne]

/-- Witness for C2 at a concrete conversion and trampoline invocation. -/
theorem executeSafeCommand_round_trip_witness :
    SafeRegOk (initialState "safe") ∧
    ∃ st' hId scope',
      toSafeCommand (initialState "safe")
        { command := some "doIt", title := none, arguments := some [Val.str "a"] }
        [] = (st', Except.ok
          ({ command := some (initialState "safe").safeCommandId, title := none,
             arguments := some [Val.num hId] }, scope')) ∧
      executeSafeCommand 5 st' [Val.num hId] =
        executeCommand 5 st' "doIt" [Val.str "a"] :=
  ⟨Or.inr ⟨rfl, rfl, rfl⟩,
    executeSafeCommand_round_trip (initialState "safe")
      { command := some "doIt", title := none, arguments := some [Val.str "a"] }
      [] 5 "doIt" [Val.str "a"] (Or.inr ⟨rfl, rfl, rfl⟩) rfl
      (by decide) rfl (by decide)⟩

/-- C3: once the disposal scope returned by a conversion has been
disposed, invoking the trampoline handler with the issued handle is
rejected with the not-found message; a handle that was never issued (not
present in the map) is likewise rejected. -/
theorem executeSafeCommand_released_handle_rejected (st : RegistryState)
    (c : Command) (scope : List DispAction) (fuel : Nat) (k : Int)
    (h : SafeRegOk st) (hk : jsMapGet st.commandsMap k = none) :
    (∀ st' res scope', toSafeCommand st c scope = (st', Except.ok (res, scope')) →
      (truthyStr c.command && argsNonEmpty c.arguments) = true →
      ∀ hId, res.arguments = some [Val.num hId] →
        executeSafeCommand fuel (runDisposables st' scope') [Val.num hId] =
          ExecOutcome.rejected "command NOT FOUND") ∧
    executeSafeCommand fuel st [Val.num k] =
      ExecOutcome.rejected "command NOT FOUND" := by
  obtain ⟨h1, _, _, _, _⟩ := ensureSafeRegistered_ok st h
  constructor
  · intro st' res scope' heq ht hId hargs
    rw [toSafeCommand_eq_of_ok st h1 c scope, if_pos ht] at heq
    simp only [Prod.mk.injEq, Except.ok.injEq] at heq
    obtain ⟨h5, h6, h7⟩ := heq
    subst h5
    subst h6
    subst h7
    simp only [Command.arguments] at hargs
    simp only [Option.some.injEq, List.cons.injEq, Val.num.injEq, and_true] at hargs
    subst hargs
    simp [runDisposables, List.foldl_append, runDispAction, executeSafeCommand,
      executeSafeCommandCore, commandsMapLookup, jsMapGet_delete_self]
  · simp [executeSafeCommand, executeSafeCommandCore, commandsMapLookup, hk]

/-- Witness for C3: a handle never issued in the initial state is
rejected. -/
theorem executeSafeCommand_released_handle_rejected_witness :
    SafeRegOk (initialState "safe") ∧
    jsMapGet (initialState "safe").commandsMap 7 = none ∧
    executeSafeCommand 3 (initialState "safe") [Val.num 7] =
      ExecOutcome.rejected "command NOT FOUND" :=
  ⟨Or.inr ⟨rfl, rfl, rfl⟩, rfl,
    (executeSafeCommand_released_handle_rejected (initialState "safe")
      { command := some "x", title := none, arguments := some [] } [] 3 7
      (Or.inr ⟨rfl, rfl, rfl⟩) rfl).2⟩

/-- C5 counterexample: at a state where a handler was attached to `x`
through `registerHandler` but `x` is not in the registered-command set,
`registerCommand` for the fresh identifier `x` with a handler throws the
handler-duplicate error instead of succeeding with a disposable. -/
theorem registerCommand_fresh_counterexample :
    jsSetHas preHandlerState.commands "x" = false ∧
    (registerCommand preHandlerState { id := "x" }
        (some (RawHandler.fn headHandler, Val.unit))).2 =
      Except.error ("Command \"" ++ "x" ++ "\" already has handler") :=
  ⟨rfl, rfl⟩

/-- C5 amended: with the proviso that, when a handler is supplied, no
handler is already attached to the identifier: a duplicate identifier
makes `registerCommand` throw the duplicate error synchronously with the
state unchanged; a fresh identifier is added to the set, the proxy is
notified of the registration, the handler (when supplied) is attached,
and a disposable is returned. -/
theorem registerCommand_spec (st : RegistryState) (cmd : CommandDescription)
    (hOpt : Option (RawHandler × Val))
    (hcompat : ∀ rh t, hOpt = some (rh, t) →
      (jsMapGet st.handlers cmd.id).isNone = true) :
    (jsSetHas st.commands cmd.id = true →
      registerCommand st cmd hOpt =
        (st, Except.error ("Command " ++ cmd.id ++ " already exist"))) ∧
    (jsSetHas st.commands cmd.id = false →
      ∃ ds, (registerCommand st cmd hOpt).2 = Except.ok ds ∧
        jsSetHas (registerCommand st cmd hOpt).1.commands cmd.id = true ∧
        ProxyCall.registerCommand cmd.id ∈ (registerCommand st cmd hOpt).1.proxyLog ∧
        (∀ rh t, hOpt = some (rh, t) →
          jsMapGet (registerCommand st cmd hOpt).1.handlers cmd.id =
            some (bindHandler rh t)) ∧
        (hOpt = none → (registerCommand st cmd hOpt).1.handlers = st.handlers)) := by
  constructor
  · intro hdup
    simp [registerCommand, hdup]
  · intro h
    rcases hOpt with _ | ⟨rh, t⟩
    · refine ⟨[DispAction.disposeCommand cmd.id], ?_, ?_, ?_, ?_, ?_⟩
      · simp [registerCommand, h]
      · simp [registerCommand, h, jsSetHas_add_self]
      · simp [registerCommand, h]
      · intro rh t hcon
        simp at hcon
      · intro _
        simp [registerCommand, h]
    · have hnone : jsMapGet st.handlers cmd.id = none :=
        Option.isNone_iff_eq_none.mp (hcompat rh t rfl)
      refine ⟨[DispAction.disposeHandler cmd.id, DispAction.disposeCommand cmd.id],
        ?_, ?_, ?_, ?_, ?_⟩
      · simp [registerCommand, registerHandler, h, hnone]
      · simp [registerCommand, registerHandler, h, hnone, jsSetHas_add_self]
      · simp [registerCommand, registerHandler, h, hnone]
      · intro rh' t' hcon
        simp only [Option.some.injEq, Prod.mk.injEq] at hcon
        obtain ⟨h1, h2⟩ := hcon
        subst h1
        subst h2
        simp [registerCommand, registerHandler, h, hnone, jsMapGet_set_self]
      · intro hcon
        simp at hcon

/-- Witness for the amended C5: fresh registration with a handler at the
empty initial state. -/
theorem registerCommand_spec_witness :
    jsSetHas (initialState "safe").commands "x" = false ∧
    ∃ ds, (registerCommand (initialState "safe") { id := "x" }
        (some (RawHandler.fn headHandler, Val.unit))).2 = Except.ok ds ∧
      jsSetHas (registerCommand (initialState "safe") { id := "x" }
        (some (RawHandler.fn headHandler, Val.unit))).1.commands "x" = true ∧
      ProxyCall.registerCommand "x" ∈ (registerCommand (initialState "safe")
        { id := "x" } (some (RawHandler.fn headHandler, Val.unit))).1.proxyLog ∧
      (∀ rh t, (some (RawHandler.fn headHandler, Val.unit) :
          Option (RawHandler × Val)) = some (rh, t) →
        jsMapGet (registerCommand (initialState "safe") { id := "x" }
          (some (RawHandler.fn headHandler, Val.unit))).1.handlers "x" =
          some (bindHandler rh t)) ∧
      ((some (RawHandler.fn headHandler, Val.unit) :
          Option (RawHandler × Val)) = none →
        (registerCommand (initialState "safe") { id := "x" }
          (some (RawHandler.fn headHandler, Val.unit))).1.handlers =
          (initialState "safe").handlers) :=
  ⟨rfl, (registerCommand_spec (initialState "safe") { id := "x" }
    (some (RawHandler.fn headHandler, Val.unit)) (fun _ _ _ => rfl)).2 rfl⟩

/-- C8 counterexample: `x` gets a handler through `registerHandler`
alone; `registerCommand` for `x` without a handler then succeeds, and
after disposing the returned disposable, `$executeCommand` for `x` still
resolves through the independently attached handler instead of being
rejected with not-found. -/
theorem registerCommand_dispose_counterexample :
    (registerCommand preHandlerState { id := "x" } none).2 =
      Except.ok [DispAction.disposeCommand "x"] ∧
    dollarExecuteCommand 1
      (runDisposables (registerCommand preHandlerState { id := "x" } none).1
        [DispAction.disposeCommand "x"]) "x" [Val.num 9] =
      ExecOutcome.ok (Val.num 9) :=
  ⟨rfl, rfl⟩

/-- C8 amended: with the proviso that no handler is attached to the
identifier other than by this registration: disposing the disposable
returned by `registerCommand` removes the identifier from the command
set, detaches any handler attached by that registration, notifies the
proxy of the unregistration, and a subsequent `$executeCommand` for the
identifier is rejected with not-found. -/
theorem registerCommand_dispose_spec (fuel : Nat) (st : RegistryState)
    (cmd : CommandDescription) (hOpt : Option (RawHandler × Val)) (args : List Val)
    (hfresh : jsSetHas st.commands cmd.id = false)
    (hh : (jsMapGet st.handlers cmd.id).isNone = true) :
    ∃ ds, (registerCommand st cmd hOpt).2 = Except.ok ds ∧
      jsSetHas (runDisposables (registerCommand st cmd hOpt).1 ds).commands
        cmd.id = false ∧
      jsMapGet (runDisposables (registerCommand st cmd hOpt).1 ds).handlers
        cmd.id = none ∧
      ProxyCall.unregisterCommand cmd.id ∈
        (runDisposables (registerCommand st cmd hOpt).1 ds).proxyLog ∧
      dollarExecuteCommand fuel (runDisposables (registerCommand st cmd hOpt).1 ds)
        cmd.id args =
        ExecOutcome.rejected ("Command: " ++ cmd.id ++ " does not exist.") := by
  have hnone : jsMapGet st.handlers cmd.id = none := Option.isNone_iff_eq_none.mp hh
  rcases hOpt with _ | ⟨rh, t⟩
  · refine ⟨[DispAction.disposeCommand cmd.id], ?_, ?_, ?_, ?_, ?_⟩
    · simp [registerCommand, hfresh]
    · simp [registerCommand, hfresh, runDisposables, runDispAction, jsSetHas_delete_self]
    · simp [registerCommand, hfresh, runDisposables, runDispAction, hnone]
    · simp [registerCommand, hfresh, runDisposables, runDispAction]
    · simp [dollarExecuteCommand, registerCommand, hfresh, runDisposables,
        runDispAction, hnone]
  · refine ⟨[DispAction.disposeHandler cmd.id, DispAction.disposeCommand cmd.id],
      ?_, ?_, ?_, ?_, ?_⟩
    · simp [registerCommand, registerHandler, hfresh, hnone]
    · simp [registerCommand, registerHandler, hfresh, hnone, runDisposables,
        runDispAction, jsSetHas_delete_self]
    · simp [registerCommand, registerHandler, hfresh, hnone, runDisposables,
        runDispAction, jsMapGet_delete_self]
    · simp [registerCommand, registerHandler, hfresh, hnone, runDisposables,
        runDispAction]
    · simp [dollarExecuteCommand, registerCommand, registerHandler, hfresh, hnone,
        runDisposables, runDispAction, jsMapGet_delete_self]

/-- Witness for the amended C8: register `x` with a handler at the empty
initial state, dispose, and observe the not-found rejection. -/
theorem registerCommand_dispose_spec_witness :
    jsSetHas (initialState "safe").commands "x" = false ∧
    (jsMapGet (initialState "safe").handlers "x").isNone = true ∧
    ∃ ds, (registerCommand (initialState "safe") { id := "x" }
        (some (RawHandler.fn headHandler, Val.unit))).2 = Except.ok ds ∧
      jsSetHas (runDisposables (registerCommand (initialState "safe") { id := "x" }
        (some (RawHandler.fn headHandler, Val.unit))).1 ds).commands "x" = false ∧
      jsMapGet (runDisposables (registerCommand (initialState "safe") { id := "x" }
        (some (RawHandler.fn headHandler, Val.unit))).1 ds).handlers "x" = none ∧
      ProxyCall.unregisterCommand "x" ∈
        (runDisposables (registerCommand (initialState "safe") { id := "x" }
          (some (RawHandler.fn headHandler, Val.unit))).1 ds).proxyLog ∧
      dollarExecuteCommand 2 (runDisposables (registerCommand (initialState "safe")
          { id := "x" } (some (RawHandler.fn headHandler, Val.unit))).1 ds)
        "x" [Val.num 4] =
        ExecOutcome.rejected ("Command: " ++ "x" ++ " does not exist.") :=
  ⟨rfl, rfl, registerCommand_dispose_spec 2 (initialState "safe") { id := "x" }
    (some (RawHandler.fn headHandler, Val.unit)) [Val.num 4] rfl rfl⟩

/-- C9: at any state satisfying the handle invariant, the next handle to
be allocated is distinct from all live handles; `toSafeCommand` preserves
the invariant and every existing mapping; registration operations and the
command/handler disposables never touch the handle map; and the map-entry
disposable removes exactly its own handle. -/
theorem handle_freshness_invariant (st : RegistryState) (hinv : HandleInv st) :
    jsMapGet st.commandsMap st.handle = none ∧
    (∀ c scope st' r, toSafeCommand st c scope = (st', r) →
      HandleInv st' ∧
      ∀ k v, jsMapGet st.commandsMap k = some v →
        jsMapGet st'.commandsMap k = some v) ∧
    (∀ cmd hOpt, (registerCommand st cmd hOpt).1.commandsMap = st.commandsMap ∧
      (registerCommand st cmd hOpt).1.handle = st.handle) ∧
    (∀ cid rh t, (registerHandler st cid rh t).1.commandsMap = st.commandsMap ∧
      (registerHandler st cid rh t).1.handle = st.handle) ∧
    (∀ p, (registerArgumentProcessor st p).commandsMap = st.commandsMap) ∧
    (∀ cid, (runDispAction st (DispAction.disposeHandler cid)).commandsMap =
        st.commandsMap ∧
      (runDispAction st (DispAction.disposeCommand cid)).commandsMap =
        st.commandsMap) ∧
    (∀ hdl, HandleInv (runDispAction st (DispAction.disposeMapEntry hdl)) ∧
      ∀ k v, k ≠ hdl → jsMapGet st.commandsMap k = some v →
        jsMapGet (runDispAction st (DispAction.disposeMapEntry hdl)).commandsMap
          k = some v) := by
  obtain ⟨hm, hhdl⟩ := ensureSafeRegistered_preserves st
  refine ⟨jsMapGet_eq_none_of_lt st.commandsMap st.handle hinv, ?_, ?_, ?_, ?_, ?_, ?_⟩
  · intro c scope st' r heq
    rcases hE2 : (ensureSafeRegistered st).2 with msg | u
    · have hsplit : ensureSafeRegistered st =
          ((ensureSafeRegistered st).1, (ensureSafeRegistered st).2) := rfl
      rw [hE2] at hsplit
      unfold toSafeCommand at heq
      rw [hsplit] at heq
      simp only [Prod.mk.injEq] at heq
      obtain ⟨h5, _⟩ := heq
      subst h5
      constructor
      · intro p hp
        rw [hm] at hp
        rw [hhdl]
        exact hinv p hp
      · intro k v hget
        rw [hm]
        exact hget
    · cases u
      rw [toSafeCommand_eq_of_ok st hE2 c scope] at heq
      by_cases hcb : (truthyStr c.command && argsNonEmpty c.arguments) = true
      · rw [if_pos hcb] at heq
        simp only [Prod.mk.injEq] at heq
        obtain ⟨h5, _⟩ := heq
        subst h5
        constructor
        · intro p hp
          rcases mem_jsMapSet _ _ _ p hp with hp' | hp'
          · subst hp'
            exact lt_add_one _
          · have hlt : p.1 < st.handle := hinv p (by rw [← hm]; exact hp')
            have hlt1 : p.1 < (ensureSafeRegistered st).1.handle := by
              rw [hhdl]
              exact hlt
            exact lt_trans hlt1 (lt_add_one _)
        · intro k v hget
          have hkmem : (k, v) ∈ st.commandsMap := mem_of_jsMapGet _ _ _ hget
          have hklt : k < st.handle := hinv (k, v) hkmem
          have hkne : k ≠ (ensureSafeRegistered st).1.handle := by
            rw [hhdl]
            exact ne_of_lt hklt
          show jsMapGet (jsMapSet (ensureSafeRegistered st).1.commandsMap
            (ensureSafeRegistered st).1.handle c) k = some v
          rw [jsMapGet_set_ne _ _ _ _ hkne, hm]
          exact hget
      · rw [if_neg hcb] at heq
        simp only [Prod.mk.injEq] at heq
        obtain ⟨h5, _⟩ := heq
        subst h5
        constructor
        · intro p hp
          rw [hm] at hp
          rw [hhdl]
          exact hinv p hp
        · intro k v hget
          rw [hm]
          exact hget
  · intro cmd hOpt
    by_cases hdup : jsSetHas st.commands cmd.id
    · simp [registerCommand, hdup]
    · rcases hOpt with _ | ⟨rh, t⟩
      · simp [registerCommand, hdup]
      · by_cases hh : (jsMapGet st.handlers cmd.id).isSome
        · simp [registerCommand, registerHandler, hdup, hh]
        · simp [registerCommand, registerHandler, hdup, hh]
  · intro cid rh t
    by_cases hh : (jsMapGet st.handlers cid).isSome
    · simp [registerHandler, hh]
    · simp [registerHandler, hh]
  · intro p
    simp [registerArgumentProcessor]
  · intro cid
    simp [runDispAction]
  · intro hdl
    constructor
    · intro p hp
      simp only [runDispAction] at hp ⊢
      exact hinv p (mem_jsMapDelete _ _ _ hp)
    · intro k v hkne hget
      simp only [runDispAction]
      rw [jsMapGet_delete_ne _ _ _ hkne]
      exact hget

/-- Witness for C9: the invariant holds in the empty initial state and
the next handle is fresh there. -/
theorem handle_freshness_invariant_witness :
    HandleInv (initialState "safe") ∧
    jsMapGet (initialState "safe").commandsMap (initialState "safe").handle = none :=
  ⟨fun p hp => absurd hp (by simp [initialState]),
    (handle_freshness_invariant (initialState "safe")
      (fun p hp => absurd hp (by simp [initialState]))).1⟩

end Theia
